import Mathlib

/-!
# Verification of the Motion AI video engine core

Shallow embedding of the scene-generation pipeline and its resource
governance layer, translated from:

* `src/lib/budgetManager.js`  — budget ceiling tracking and the per-service
  sliding-window rate limiter;
* `src/lib/videoEngine.js`    — circuit breaker, duration clamping/snapping,
  the retry-time extractor, the per-scene video generation fallback chain,
  the scene-count computation and the sequential / bounded-parallel scene
  executors of `createMovie`.

JS numbers are modelled as `ℚ` (costs, durations) or `ℕ` (millisecond
timestamps, counters); `Map`s keyed by model/identifier strings are modelled
as functions `String → _`; code that throws is modelled with explicit
`Except`/`Option` results; the wall clock (`Date.now()`) is threaded as an
explicit `now : ℕ` argument.
-/

namespace MotionAI

/-! ## Budget manager (`src/lib/budgetManager.js`)

`const MAX_BUDGET = 5.0` (line 8). -/

def MAX_BUDGET : ℚ := 5

/-- Per-service rate limits (`RATE_LIMITS`, budgetManager.js lines 16-25):
`requestsPerMinute` and `requestsPerHour`. -/
structure RateLimits where
  requestsPerMinute : ℕ
  requestsPerHour : ℕ
  deriving Repr, DecidableEq

def RATE_LIMITS_openai : RateLimits := ⟨60, 5000⟩

def RATE_LIMITS_replicate : RateLimits := ⟨10, 500⟩

/-- Result of `checkRateLimit` (budgetManager.js lines 82-126): either
`{ allowed: true }` or `{ allowed: false, reason, retryAfter }`. -/
structure RateResult where
  allowed : Bool
  reason : Option String
  retryAfter : Option ℕ
  deriving Repr, DecidableEq

/-- `BudgetManager.checkRateLimit(service, identifier)` acting on one
identifier's `record.requests` timestamp list (budgetManager.js lines
82-126).  The surrounding `Map` bookkeeping (lines 86-93) only selects the
per-identifier record, which is what `reqs` is; a fresh identifier has
`requests = []`.  Returns the rate decision together with the new value of
`record.requests`:

* line 97-99: evict entries older than one hour,
* line 102-104: count entries in the minute window,
* line 105-111: deny on the per-minute limit (no timestamp recorded),
* line 114-120: deny on the per-hour limit (no timestamp recorded),
* line 123: record `now` when allowed. -/
def checkRateLimit (limits : RateLimits) (reqs : List ℕ) (now : ℕ) :
    RateResult × List ℕ :=
  let survivors := reqs.filter (fun t => now - t < 60 * 60 * 1000)
  let recent := survivors.filter (fun t => now - t < 60 * 1000)
  if limits.requestsPerMinute ≤ recent.length then
    (⟨false, some "Rate limit exceeded: requests per minute",
      some (60 - (now - recent.headD 0) / 1000)⟩, survivors)
  else if limits.requestsPerHour ≤ survivors.length then
    (⟨false, some "Rate limit exceeded: requests per hour",
      some (3600 - (now - survivors.headD 0) / 1000)⟩, survivors)
  else
    (⟨true, none, none⟩, survivors ++ [now])

/-- Number of requests inside the sliding minute window as counted by
`checkRateLimit` (after the one-hour eviction), budgetManager.js lines
97-104. -/
def minuteCount (reqs : List ℕ) (now : ℕ) : ℕ :=
  ((reqs.filter (fun t => now - t < 60 * 60 * 1000)).filter
    (fun t => now - t < 60 * 1000)).length

/-- Number of requests inside the sliding hour window, budgetManager.js
lines 97-99 and 114. -/
def hourCount (reqs : List ℕ) (now : ℕ) : ℕ :=
  (reqs.filter (fun t => now - t < 60 * 60 * 1000)).length

/-- `BudgetManager.trackCost(service, cost)` (budgetManager.js lines
131-141): `this.currentCost += cost` happens first, then the ceiling check
throws when `this.currentCost > MAX_BUDGET`.  Result: the new value of
`this.currentCost` (committed in both cases) paired with the raised error
message, if any. -/
def trackCost (currentCost cost : ℚ) : ℚ × Option String :=
  let newCost := currentCost + cost
  (newCost,
    if MAX_BUDGET < newCost then some "Budget exceeded!" else none)

/-- A sequence of `trackCost` calls against the same manager: the final
cumulative cost, paired with whether any call in the sequence raised. -/
def trackAll : ℚ → List ℚ → ℚ × Bool
  | currentCost, [] => (currentCost, false)
  | currentCost, cost :: rest =>
      let step := trackCost currentCost cost
      let next := trackAll step.1 rest
      (next.1, step.2.isSome || next.2)

/-- `BudgetManager.getBudgetStatus()` (budgetManager.js lines 163-170). -/
structure BudgetStatus where
  current : ℚ
  max : ℚ
  remaining : ℚ
  percentage : ℚ
  deriving Repr, DecidableEq

def getBudgetStatus (currentCost : ℚ) : BudgetStatus :=
  ⟨currentCost, MAX_BUDGET, MAX_BUDGET - currentCost,
    currentCost / MAX_BUDGET * 100⟩

/-! ## Circuit breaker (`src/lib/videoEngine.js` lines 1064-1102)

The singleton is `new CircuitBreaker()`, so `failureThreshold = 3` and
`resetTimeout = 60 * 1000`.  `this.failures` is a `Map` from model name to
`{ count, lastFailure }`, modelled as `String → Option CBRecord`. -/

def failureThreshold : ℕ := 3

def resetTimeout : ℕ := 60 * 1000

structure CBRecord where
  count : ℕ
  lastFailure : ℕ
  deriving Repr, DecidableEq

def CBState : Type := String → Option CBRecord

def CBState.empty : CBState := fun _ => none

def CBState.set (st : CBState) (model : String) (r : Option CBRecord) :
    CBState :=
  fun m => if m = model then r else st m

/-- `CircuitBreaker.canExecute(model)` (videoEngine.js lines 1071-1081).
Returns the boolean answer together with the possibly-modified `failures`
map (line 1076 deletes a timed-out record). -/
def canExecute (st : CBState) (model : String) (now : ℕ) :
    Bool × CBState :=
  match st model with
  | none => (true, st)
  | some record =>
      if resetTimeout < now - record.lastFailure then
        (true, st.set model none)
      else
        (record.count < failureThreshold, st)

/-- `CircuitBreaker.recordSuccess(model)` (videoEngine.js lines 1083-1085). -/
def recordSuccess (st : CBState) (model : String) : CBState :=
  st.set model none

/-- `CircuitBreaker.recordFailure(model)` (videoEngine.js lines 1087-1093).
Returns the new failure count (the JS return value) and the new map. -/
def recordFailure (st : CBState) (model : String) (now : ℕ) :
    ℕ × CBState :=
  let record := (st model).getD ⟨0, 0⟩
  (record.count + 1, st.set model (some ⟨record.count + 1, now⟩))

/-! ## Video model catalogue (`src/lib/videoEngine.js` lines 844-920)

`VIDEO_CONSTRAINTS` (lines 844-854) and `VIDEO_MODELS` (lines 856-920).
Each model's `buildInput` only transforms the duration in a way that
matters to the pipeline for `google/veo-3.1-fast` (lines 864-880); the
other models pass the duration through (directly or as
`num_frames = floor(duration * fps)`). -/

def MIN_DURATION : ℚ := 4

def MAX_TOTAL_DURATION : ℚ := 60 * 60

def MAX_PARALLEL_SCENES : ℕ := 2

structure ModelSpec where
  maxDuration : ℚ
  allowedDurations : Option (List ℚ)
  costPerSecond : ℚ
  enabled : Bool

/-- `VIDEO_MODELS[name]` (videoEngine.js lines 856-920); unknown names give
`none` (JS `undefined`). -/
def VIDEO_MODELS : String → Option ModelSpec
  | "google/veo-3.1-fast" => some ⟨8, some [4, 6, 8], 15 / 1000, true⟩
  | "luma/dream-machine" => some ⟨30, none, 1 / 100, true⟩
  | "stability-ai/svd" => some ⟨30, none, 8 / 1000, true⟩
  | "anotherjesse/zeroscope-v2-xl" => some ⟨30, none, 7 / 1000, true⟩
  | _ => none

/-- `allowedDurations.reduce((prev, curr) => Math.abs(curr - d) <
Math.abs(prev - d) ? curr : prev)` (videoEngine.js lines 1434-1436): the
first element is the initial accumulator, so on a tie the earlier (for the
ascending `[4, 6, 8]` list: smaller) value wins. -/
def snapToAllowed (allowed : List ℚ) (d : ℚ) : ℚ :=
  match allowed with
  | [] => d
  | a :: rest =>
      rest.foldl (fun prev curr => if |curr - d| < |prev - d| then curr else prev) a

/-- The duration actually used by `generateSceneVideo` for a model
(videoEngine.js lines 1427-1440): clamp to
`[VIDEO_CONSTRAINTS.MIN_DURATION, model.maxDuration]`, then snap to the
model's `allowedDurations` when it has them. -/
def clampedDuration (spec : ModelSpec) (duration : ℚ) : ℚ :=
  let clamped := min (max duration MIN_DURATION) spec.maxDuration
  match spec.allowedDurations with
  | some allowed => snapToAllowed allowed clamped
  | none => clamped

/-- The duration put into the request by
`VIDEO_MODELS["google/veo-3.1-fast"].buildInput` (videoEngine.js lines
864-873): `duration <= 5 → 4`, `duration <= 7 → 6`, otherwise `8`. -/
def veoBuildInputDuration (duration : ℚ) : ℚ :=
  if duration ≤ 5 then 4 else if duration ≤ 7 then 6 else 8

/-! ## Retry-time extraction (`src/lib/videoEngine.js` lines 1372-1378)

`extractRetryTime(errorMessage)` tries, in order, the JS regexes
`/retry_after["\s:]*(\d+)/i`, `/wait\s+(\d+)\s+seconds/i` and
`/retry\s+after\s+(\d+)/i` against the message and returns
`parseInt(match[1])` of the first one that matches, defaulting to `10`.
Each regex is embedded as a direct matcher over the character list; `\s`
is the ASCII whitespace class and matching of literals is
case-insensitive (the `i` flag). -/

def isWs (c : Char) : Bool :=
  c = ' ' || c = '\t' || c = '\n' || c = '\r' || c = '\x0b' || c = '\x0c'

def isDigitCh (c : Char) : Bool := '0' ≤ c && c ≤ '9'

/-- Case-insensitive literal match; returns the rest of the input on
success. -/
def matchLitCI : List Char → List Char → Option (List Char)
  | [], s => some s
  | _ :: _, [] => none
  | l :: ls, c :: cs =>
      if l.toLower = c.toLower then matchLitCI ls cs else none

/-- `parseInt` on a non-empty decimal digit string. -/
def digitsVal (ds : List Char) : ℕ :=
  ds.foldl (fun acc c => 10 * acc + (c.toNat - '0'.toNat)) 0

/-- One-or-more digits at the head of the input (`(\d+)` with nothing
after it, so the greedy match is the maximal digit run). -/
def matchDigits1 (s : List Char) : Option ℕ :=
  let ds := s.takeWhile isDigitCh
  if ds.isEmpty then none else some (digitsVal ds)

/-- `/retry_after["\s:]*(\d+)/i` at the current position: the literal,
then any run of `"`/whitespace/`:` (digits are outside that class, so the
greedy run is exact), then one or more digits. -/
def pat1At (s : List Char) : Option ℕ := do
  let s ← matchLitCI "retry_after".data s
  matchDigits1 (s.dropWhile (fun c => c = '"' || isWs c || c = ':'))

/-- `/wait\s+(\d+)\s+seconds/i` at the current position. -/
def pat2At (s : List Char) : Option ℕ := do
  let s ← matchLitCI "wait".data s
  let ws := s.takeWhile isWs
  if ws.isEmpty then none else
  let s := s.dropWhile isWs
  let ds := s.takeWhile isDigitCh
  if ds.isEmpty then none else
  let s := s.dropWhile isDigitCh
  let ws2 := s.takeWhile isWs
  if ws2.isEmpty then none else
  let s := s.dropWhile isWs
  let _ ← matchLitCI "seconds".data s
  some (digitsVal ds)

/-- `/retry\s+after\s+(\d+)/i` at the current position. -/
def pat3At (s : List Char) : Option ℕ := do
  let s ← matchLitCI "retry".data s
  let ws := s.takeWhile isWs
  if ws.isEmpty then none else
  let s := s.dropWhile isWs
  let s ← matchLitCI "after".data s
  let ws2 := s.takeWhile isWs
  if ws2.isEmpty then none else
  matchDigits1 (s.dropWhile isWs)

/-- Leftmost match of a position matcher (JS `String.match` scans left to
right). -/
def findLeftmost (pat : List Char → Option ℕ) : List Char → Option ℕ
  | [] => pat []
  | c :: cs =>
      match pat (c :: cs) with
      | some n => some n
      | none => findLeftmost pat cs

/-- `extractRetryTime(errorMessage)` (videoEngine.js lines 1373-1378). -/
def extractRetryTime (errorMessage : String) : ℕ :=
  match findLeftmost pat1At errorMessage.data with
  | some n => n
  | none =>
      match findLeftmost pat2At errorMessage.data with
      | some n => n
      | none =>
          match findLeftmost pat3At errorMessage.data with
          | some n => n
          | none => 10

/-- Does `needle` occur as a contiguous run somewhere in `hay`? -/
def containsRun (needle : List Char) : List Char → Bool
  | [] => needle.isEmpty
  | c :: cs => needle.isPrefixOf (c :: cs) || containsRun needle cs

/-- JS `String.prototype.includes`, used to classify error messages
(videoEngine.js lines 1500, 1506, 1509). -/
def strIncludes (hay needle : String) : Bool :=
  containsRun needle.data hay.data

/-! ## Video stage: `generateSceneVideo` (`src/lib/videoEngine.js` lines 1380-1549)

The remote call `Promise.race([replicate.run(...), timeoutPromise])`
together with the URL extraction (lines 1478-1489) is abstracted as an
oracle indexed by a per-run call counter: `.ok url` is a successful call
whose response yielded the clip URL, `.error msg` is any thrown error
(timeout, malformed response, HTTP failure text).  The cancellation token
is not modelled (`abortSignal = null`).  Everything else — circuit-breaker
gating, per-model rate limiting, duration clamping, budget gating, cost
tracking, error classification and the bounded delayed auto-retry for
rate-limit errors — is threaded explicitly.  Waits and API calls are
recorded as events so that the retry schedule is observable. -/

def MAX_RETRIES : ℕ := 3

def ApiOracle : Type := ℕ → Except String String

def setFn {α : Type} (f : String → α) (k : String) (v : α) : String → α :=
  fun x => if x = k then v else f x

structure EngineState where
  breaker : CBState
  currentCost : ℚ
  rlReqs : String → List ℕ
  now : ℕ
  apiCalls : ℕ

def EngineState.init : EngineState :=
  ⟨CBState.empty, 0, fun _ => [], 0, 0⟩

inductive GenEvent
  | apiCall (model : String)
  | waited (seconds : ℕ)
  deriving Repr, DecidableEq

structure GenSuccess where
  videoUrl : String
  model : String
  duration : ℚ
  deriving Repr, DecidableEq

instance {ε α : Type} [DecidableEq ε] [DecidableEq α] :
    DecidableEq (Except ε α) := fun a b =>
  match a, b with
  | .ok x, .ok y =>
      if h : x = y then isTrue (by rw [h]) else
        isFalse (by intro hc; cases hc; exact h rfl)
  | .error x, .error y =>
      if h : x = y then isTrue (by rw [h]) else
        isFalse (by intro hc; cases hc; exact h rfl)
  | .ok _, .error _ => isFalse (by intro hc; cases hc)
  | .error _, .ok _ => isFalse (by intro hc; cases hc)

structure GenErrorEntry where
  model : String
  error : String
  failureCount : Option ℕ
  deriving Repr, DecidableEq

def allFailedMessage (errors : List GenErrorEntry) : String :=
  "All video generation models failed:" ++
    String.join (errors.map (fun e => "\n  - " ++ e.model ++ ": " ++ e.error))

/-- The `for (const modelName of models)` loop of `generateSceneVideo`
(videoEngine.js lines 1401-1548), one constructor case per outcome.

* circuit breaker open → collect error, next model (lines 1407-1410);
* rate limited → collect error, next model (lines 1413-1421);
* insufficient remaining budget → collect error, next model (1442-1450);
* successful call → track cost (rethrowing its budget-exceeded error,
  lines 1495, 1500-1501), record success, return (lines 1479-1498);
* failed call → classify (402 / 429 / generic, lines 1504-1535); a
  429-class failure with `retryCount < MAX_RETRIES` waits
  `extractRetryTime(msg) + 1` seconds and retries the same model via a
  recursive call with `retryCount + 1` (lines 1514-1531); afterwards the
  failure is recorded in the circuit breaker and the loop moves to the
  next model (lines 1537-1542).

`fuel` is a structural bound on the recursion depth (each loop step and
each retry descent peels one unit).  A run touches at most
`4 models × (MAX_RETRIES + 2)` nested calls, so the entry point's
`GEN_FUEL = 64` strictly exceeds every reachable depth and the exhausted
case is never taken. -/
def genVideoGo (api : ApiOracle) (duration : ℚ) :
    ℕ → ℕ → List String → List GenErrorEntry → EngineState →
    List GenEvent → Except String GenSuccess × EngineState × List GenEvent
  | 0, _, _, errors, st, events =>
      (.error (allFailedMessage errors), st, events)
  | _ + 1, _, [], errors, st, events =>
      (.error (allFailedMessage errors), st, events)
  | fuel + 1, retryCount, m :: rest, errors, st, events =>
      let ce := canExecute st.breaker m st.now
      let st := { st with breaker := ce.2 }
      if !ce.1 then
        genVideoGo api duration fuel retryCount rest
          (errors ++ [⟨m, "Circuit breaker open", none⟩]) st events
      else
        let rl := checkRateLimit RATE_LIMITS_replicate (st.rlReqs m) st.now
        let st := { st with rlReqs := setFn st.rlReqs m rl.2 }
        if !rl.1.allowed then
          genVideoGo api duration fuel retryCount rest
            (errors ++ [⟨m, "Rate limit: " ++ (rl.1.reason.getD ""), none⟩])
            st events
        else
          match VIDEO_MODELS m with
          | none =>
              genVideoGo api duration fuel retryCount rest
                (errors ++ [⟨m, "Unknown model", none⟩]) st events
          | some spec =>
              let actual := clampedDuration spec duration
              let est := spec.costPerSecond * actual
              if (getBudgetStatus st.currentCost).remaining < est then
                genVideoGo api duration fuel retryCount rest
                  (errors ++ [⟨m, "Budget insufficient", none⟩]) st events
              else
                let idx := st.apiCalls
                let st := { st with apiCalls := idx + 1 }
                let events := events ++ [GenEvent.apiCall m]
                match api idx with
                | .ok url =>
                    let tc := trackCost st.currentCost est
                    let st := { st with currentCost := tc.1 }
                    if tc.2.isSome then
                      (.error "Budget exceeded!", st, events)
                    else
                      (.ok ⟨url, m, actual⟩,
                        { st with breaker := recordSuccess st.breaker m },
                        events)
                | .error msg =>
                    if strIncludes msg "Budget exceeded" then
                      (.error msg, st, events)
                    else if strIncludes msg "402" ||
                        strIncludes msg "Payment Required" ||
                        strIncludes msg "insufficient credit" then
                      let rf := recordFailure st.breaker m st.now
                      let st := { st with breaker := rf.2 }
                      genVideoGo api duration fuel retryCount rest
                        (errors ++
                          [⟨m, "Replicate account has insufficient credit.",
                            some rf.1⟩]) st events
                    else if strIncludes msg "429" ||
                        strIncludes msg "Too Many Requests" then
                      let retryAfter := extractRetryTime msg
                      let rateMsg := "Rate limit exceeded. Please wait " ++
                        toString retryAfter ++ " seconds before retrying."
                      if retryCount < MAX_RETRIES then
                        let st := { st with
                          now := st.now + (retryAfter + 1) * 1000 }
                        let events := events ++ [GenEvent.waited (retryAfter + 1)]
                        match genVideoGo api duration fuel
                            (retryCount + 1) [m] [] st events with
                        | (.ok r, st', ev') => (.ok r, st', ev')
                        | (.error emsg, st', ev') =>
                            let rf := recordFailure st'.breaker m st'.now
                            let st' := { st' with breaker := rf.2 }
                            genVideoGo api duration fuel retryCount
                              rest (errors ++ [⟨m, emsg, some rf.1⟩])
                              st' ev'
                      else
                        let rf := recordFailure st.breaker m st.now
                        let st := { st with breaker := rf.2 }
                        genVideoGo api duration fuel retryCount rest
                          (errors ++ [⟨m, rateMsg, some rf.1⟩]) st events
                    else
                      let rf := recordFailure st.breaker m st.now
                      let st := { st with breaker := rf.2 }
                      genVideoGo api duration fuel retryCount rest
                        (errors ++ [⟨m, msg, some rf.1⟩]) st events

/-- Recursion-depth budget for `genVideoGo`; strictly larger than any
reachable call depth (at most four chain entries, each with at most
`MAX_RETRIES` nested retries). -/
def GEN_FUEL : ℕ := 64

def DEFAULT_MODEL_CHAIN : List String :=
  ["google/veo-3.1-fast", "luma/dream-machine", "stability-ai/svd",
    "anotherjesse/zeroscope-v2-xl"]

/-- `generateSceneVideo` entry (videoEngine.js lines 1380-1399): defaults
the chain, filters it to enabled models, fails when none remain. -/
def generateSceneVideo (api : ApiOracle) (duration : ℚ)
    (modelChain : Option (List String)) (st : EngineState) :
    Except String GenSuccess × EngineState × List GenEvent :=
  let chain := modelChain.getD DEFAULT_MODEL_CHAIN
  let models := chain.filter
    (fun m => (VIDEO_MODELS m).elim false (·.enabled))
  if models.isEmpty then
    (.error "No enabled video models available", st, [])
  else
    genVideoGo api duration GEN_FUEL 0 models [] st []

/-! ## Orchestrator: scene count (`src/lib/videoEngine.js` lines 1749-1811) -/

/-- `modelChain?.[0] || "google/veo-3.1-fast"` (videoEngine.js line 1761). -/
def selectedModelName (modelChain : Option (List String)) : String :=
  match modelChain with
  | some (m :: _) => m
  | _ => "google/veo-3.1-fast"

/-- `createMovie`'s input validation (videoEngine.js lines 1749-1757):
trimmed prompt at least 10 characters, at least one character id, total
duration at most `MAX_TOTAL_DURATION`. -/
def validCreateMovie (promptLen numCharacters : ℕ) (totalDurationSeconds : ℚ) :
    Prop :=
  10 ≤ promptLen ∧ 1 ≤ numCharacters ∧
    totalDurationSeconds ≤ MAX_TOTAL_DURATION

instance (promptLen numCharacters : ℕ) (T : ℚ) :
    Decidable (validCreateMovie promptLen numCharacters T) := by
  unfold validCreateMovie; infer_instance

/-- The scene duration `createMovie` actually uses (videoEngine.js lines
1759-1784): start from the requested `sceneDuration`; when
`totalDurationSeconds === 30` replace it by `6` (model with
`allowedDurations`) or `10` (otherwise); finally snap to the selected
model's `allowedDurations` when it has them. -/
def calculatedSceneDuration (totalDurationSeconds sceneDuration : ℚ)
    (modelChain : Option (List String)) : ℚ :=
  let selectedModel := VIDEO_MODELS (selectedModelName modelChain)
  let d1 :=
    if totalDurationSeconds = 30 then
      match selectedModel with
      | some m => if m.allowedDurations.isSome then 6 else 10
      | none => 10
    else sceneDuration
  match selectedModel with
  | some m =>
      match m.allowedDurations with
      | some allowed => snapToAllowed allowed d1
      | none => d1
  | none => d1

/-- `totalScenes = Math.max(1, Math.ceil(totalDurationSeconds /
calculatedSceneDuration))` (videoEngine.js line 1811). -/
def totalScenesCount (totalDurationSeconds sceneDuration : ℚ)
    (modelChain : Option (List String)) : ℤ :=
  max 1
    ⌈totalDurationSeconds /
      calculatedSceneDuration totalDurationSeconds sceneDuration modelChain⌉

/-! ## Orchestrator: per-scene pipeline and the sequential driver
(`src/lib/videoEngine.js` lines 1829-1933 and 1939-1976)

Each `sceneFns[i]` runs script generation → prompt assembly → video
generation → storage for scene `i`; its observable outcome for run
bookkeeping is either success (with the clip URL, the parsed summary and
the end hook) or failure with an error message.  That pipeline outcome is
abstracted as an oracle `SceneOutcome` per scene.  The shared run state a
scene function touches is `storySoFar`, `previousSceneEnd` (lines
1829-1830, written at lines 1896-1897 on success only), the shared
`scenes` array (pushed at lines 1911/1928 in completion order) and the
progress tracker's failure list (line 1926). -/

inductive SceneOutcome
  | ok (videoUrl summary endHook : String)
  | fail (error : String)
  deriving Repr, DecidableEq

structure SceneRecord where
  scene : ℕ
  success : Bool
  aborted : Bool
  video : Option String
  summary : Option String
  error : Option String
  deriving Repr, DecidableEq

structure OrchState where
  storySoFar : String
  previousSceneEnd : Option String
  scenes : List SceneRecord
  failedCount : ℕ
  reads : List (ℕ × String × Option String)
  deriving Repr, DecidableEq

def OrchState.init : OrchState := ⟨"", none, [], 0, []⟩

/-- The body of `sceneFns[i]` (videoEngine.js lines 1837-1932) as a state
transformer, for a run in which no abort fires.  The continuity state
(`storySoFar`, `previousSceneEnd`) is read when the scene's script request
is built (lines 1859-1869), recorded here in `reads`; on success the scene
appends its summary to `storySoFar` and replaces `previousSceneEnd` with
its end hook (lines 1896-1897) and pushes a successful record (line 1911);
on failure it pushes a failed record and registers the failure with the
progress tracker (lines 1926-1928). -/
def runSceneFn (st : OrchState) (i : ℕ) (oc : SceneOutcome) : OrchState :=
  let st := { st with
    reads := st.reads ++ [(i, st.storySoFar, st.previousSceneEnd)] }
  match oc with
  | .ok url summary hook =>
      { st with
        storySoFar := st.storySoFar ++ "\nScene " ++ toString i ++ ": " ++
          summary,
        previousSceneEnd := some hook,
        scenes := st.scenes ++ [⟨i, true, false, some url, some summary, none⟩] }
  | .fail e =>
      { st with
        scenes := st.scenes ++ [⟨i, false, false, none, none, some e⟩],
        failedCount := st.failedCount + 1 }

/-- The sequential driver (videoEngine.js lines 1944-1957 and 1962-1976):
`await sceneFns[i]()` for `i = 0, 1, ...` in order, with a fixed
inter-scene delay that does not affect the run bookkeeping.  `i` is the
1-based scene number of the next scene. -/
def runScenesFrom (i : ℕ) (l : List SceneOutcome) (st : OrchState) :
    OrchState :=
  match l with
  | [] => st
  | oc :: rest => runScenesFrom (i + 1) rest (runSceneFn st i oc)

def runScenesSeq (l : List SceneOutcome) : OrchState :=
  runScenesFrom 1 l OrchState.init

/-- The sequential driver when cancellation fires: both sequential loops
check `abortSignal?.aborted` before running each scene function and
`break` once it trips (videoEngine.js lines 1947-1949 and 1965-1967), so
if the signal trips after `completedBefore` scenes have settled, only
those scene functions ran — the remaining scene slots are recorded
nowhere (no scene record is pushed and no progress failure is added for
them). -/
def runScenesSeqAborted (l : List SceneOutcome) (completedBefore : ℕ) :
    OrchState :=
  runScenesFrom 1 (l.take completedBefore) OrchState.init

/-- The aggregation of `createMovie`'s return value (videoEngine.js lines
1981 and 2047-2060): `successfulScenes = scenes.filter(s => s.success &&
s.video).length`, `failedScenes = summary.failed` (the progress tracker's
failure count), and the returned `scenes` list is the successful ones in
push order. -/
def succAndVideo (r : SceneRecord) : Bool := r.success && r.video.isSome

structure RunResult where
  totalScenes : ℕ
  successfulScenes : ℕ
  failedScenes : ℕ
  scenes : List SceneRecord
  deriving Repr, DecidableEq

def movieRunResult (k : ℕ) (l : List SceneOutcome) : RunResult :=
  let st := runScenesSeq l
  ⟨k, (st.scenes.filter succAndVideo).length, st.failedCount,
    st.scenes.filter succAndVideo⟩

/-- Number of scene records marked aborted in a scene list (records with
`aborted: true` are pushed only on the cancellation path, videoEngine.js
line 1921). -/
def abortedCount (scenes : List SceneRecord) : ℕ :=
  (scenes.filter (·.aborted)).length

/-- Which executor `createMovie` picks (videoEngine.js lines 1939-1976):
the bounded-parallel executor runs only when `enableParallel` holds and
`totalScenes > 1` but not `totalScenes > 2`; every other combination runs
the strictly sequential driver. -/
def usesParallel (enableParallel : Bool) (totalScenes : ℕ) : Bool :=
  enableParallel && decide (1 < totalScenes) && !decide (2 < totalScenes)

/-! ## The bounded-parallel executor
(`src/lib/videoEngine.js` lines 1595-1646, `processScenesInParallel`)

JavaScript runs promises on a single cooperative event loop, so an
execution of `processScenesInParallel` is a sequence of atomic events:
`start i` (the loop synchronously invokes `sceneFns[i]`, which runs to its
first `await` — in particular it reads the continuity state and issues the
script request for scene `i + 1`) and `finish i` (scene `i`'s pipeline
settles: the scene record is pushed to the shared `scenes` array, the
continuity state is written on success, and `results[i]` is set).

A trace is an execution of the loop iff:

* `start i` happens exactly when `i` is the next unstarted index and
  fewer than `maxParallel` tasks are in flight (the loop body, lines
  1609-1638, starts tasks synchronously and in index order);
* `finish i` can only happen while the loop is suspended — that is when
  the in-flight count has reached `maxParallel` (the
  `await Promise.race(running)` of line 1614) or all tasks have been
  started (the `await Promise.allSettled(running)` of line 1643) — and
  completions may settle in any order;
* a complete trace starts every index `< k` and finishes all of them.

`parStep` checks one event and updates the state; `execPar` folds a
candidate trace, returning `none` for a sequence the loop cannot
produce. -/

inductive PEvent
  | start (i : ℕ)
  | finish (i : ℕ)
  deriving Repr, DecidableEq

structure ParState where
  nextStart : ℕ
  inFlight : List ℕ
  storySoFar : String
  previousSceneEnd : Option String
  pushed : List SceneRecord
  results : ℕ → Option SceneRecord
  reads : List (ℕ × String × Option String)

def ParState.init : ParState := ⟨0, [], "", none, [], fun _ => none, []⟩

def sceneRecordOf (i : ℕ) (oc : SceneOutcome) : SceneRecord :=
  match oc with
  | .ok url summary _ => ⟨i, true, false, some url, some summary, none⟩
  | .fail e => ⟨i, false, false, none, none, some e⟩

def parStep (maxParallel k : ℕ) (ocs : ℕ → SceneOutcome) (st : ParState) :
    PEvent → Option ParState
  | .start i =>
      if i = st.nextStart ∧ i < k ∧ st.inFlight.length < maxParallel then
        some { st with
          nextStart := i + 1,
          inFlight := st.inFlight ++ [i],
          reads := st.reads ++ [(i + 1, st.storySoFar, st.previousSceneEnd)] }
      else none
  | .finish i =>
      if i ∈ st.inFlight ∧
          (st.inFlight.length = maxParallel ∨ st.nextStart = k) then
        let st := { st with inFlight := st.inFlight.erase i }
        match ocs (i + 1) with
        | .ok url summary hook =>
            some { st with
              storySoFar := st.storySoFar ++ "\nScene " ++ toString (i + 1) ++
                ": " ++ summary,
              previousSceneEnd := some hook,
              pushed := st.pushed ++ [⟨i + 1, true, false, some url,
                some summary, none⟩],
              results := fun j => if j = i
                then some (sceneRecordOf (i + 1) (ocs (i + 1)))
                else st.results j }
        | .fail e =>
            some { st with
              pushed := st.pushed ++ [⟨i + 1, false, false, none, none,
                some e⟩],
              results := fun j => if j = i
                then some (sceneRecordOf (i + 1) (ocs (i + 1)))
                else st.results j }
      else none

def execPar (maxParallel k : ℕ) (ocs : ℕ → SceneOutcome) :
    List PEvent → Option ParState :=
  List.foldlM (parStep maxParallel k ocs) ParState.init

/-- A complete execution of `processScenesInParallel`: every scene was
started and every started scene settled. -/
def parComplete (k : ℕ) (st : ParState) : Prop :=
  st.nextStart = k ∧ st.inFlight = []

/-- The value `processScenesInParallel` returns (videoEngine.js lines
1626/1633 and 1645): the index-addressed `results` array with the
undefined entries filtered out. -/
def parResults (k : ℕ) (st : ParState) : List SceneRecord :=
  (List.range k).filterMap st.results

/-! ## Helper lemmas -/

theorem doubleFilter (p q : ℕ → Bool) :
    ∀ l : List ℕ, (l.filter p).filter q = l.filter (fun a => p a && q a) := by
  intro l
  induction l with
  | nil => rfl
  | cons a l ih =>
      by_cases hp : p a = true <;> by_cases hq : q a = true <;>
        simp [List.filter_cons, hp, hq, ih]

theorem filter_and_absorb (p q : ℕ → Bool) (h : ∀ t, q t = true → p t = true) :
    ∀ l : List ℕ, l.filter (fun a => p a && q a) = l.filter q := by
  intro l
  induction l with
  | nil => rfl
  | cons a l ih =>
      by_cases hq : q a = true
      · simp [List.filter_cons, hq, h a hq, ih]
      · simp only [Bool.not_eq_true] at hq
        simp [List.filter_cons, hq, ih]

theorem filterLen_le (q q' : ℕ → Bool) (h : ∀ t, q' t = true → q t = true) :
    ∀ l : List ℕ, (l.filter q').length ≤ (l.filter q).length := by
  intro l
  induction l with
  | nil => exact Nat.le_refl _
  | cons a l ih =>
      by_cases hq' : q' a = true
      · simp [List.filter_cons, hq', h a hq']
        omega
      · simp only [Bool.not_eq_true] at hq'
        by_cases hq : q a = true <;> simp [List.filter_cons, hq', hq] <;> omega

theorem filterLen_lt (q q' : ℕ → Bool) (t0 : ℕ)
    (h : ∀ t, q' t = true → q t = true) (hq : q t0 = true)
    (hq' : q' t0 = false) :
    ∀ l : List ℕ, t0 ∈ l → (l.filter q').length < (l.filter q).length := by
  intro l
  induction l with
  | nil => intro hmem; cases hmem
  | cons a l ih =>
      intro hmem
      rcases List.mem_cons.mp hmem with rfl | hmem'
      · have hle := filterLen_le q q' h l
        simp [List.filter_cons, hq, hq']
        omega
      · have hlt := ih hmem'
        by_cases hq'a : q' a = true
        · simp [List.filter_cons, hq'a, h a hq'a]
          omega
        · simp only [Bool.not_eq_true] at hq'a
          by_cases hqa : q a = true <;>
            simp [List.filter_cons, hq'a, hqa] <;> omega

/-- `checkRateLimit` only looks at the requests that survive the one-hour
eviction, so two records with the same survivors behave identically. -/
theorem checkRateLimit_congr (limits : RateLimits) (a b : List ℕ) (now : ℕ)
    (h : a.filter (fun t => now - t < 60 * 60 * 1000) =
      b.filter (fun t => now - t < 60 * 60 * 1000)) :
    checkRateLimit limits a now = checkRateLimit limits b now := by
  simp only [checkRateLimit, h]

/-! ## Theorems -/

/-- C4: for every prior cumulative cost `c` and tracked cost `x`,
`trackCost` raises the budget-exceeded error iff `c + x` exceeds
`MAX_BUDGET = 5.0`; consequently along any sequence of `trackCost` calls
in which no call raised, the cumulative cost stays within the ceiling —
spend never exceeds the ceiling silently. -/
theorem claim_C4 :
    (∀ c x : ℚ, ((trackCost c x).2.isSome ↔ MAX_BUDGET < c + x)) ∧
    (∀ (costs : List ℚ) (c : ℚ), c ≤ MAX_BUDGET →
      (trackAll c costs).2 = false → (trackAll c costs).1 ≤ MAX_BUDGET) := by
  constructor
  · intro c x
    simp only [trackCost]
    split <;> simp_all
  · intro costs
    induction costs with
    | nil => intro c hc _; simpa [trackAll] using hc
    | cons x rest ih =>
        intro c _ hraise
        simp only [trackAll, Bool.or_eq_false_iff] at hraise
        have hstep : (trackCost c x).2.isSome = false := hraise.1
        have hle : (trackCost c x).1 ≤ MAX_BUDGET := by
          simp only [trackCost] at hstep ⊢
          by_contra h
          simp [lt_of_not_le h] at hstep
        simpa [trackAll] using ih (trackCost c x).1 hle hraise.2

theorem claim_C4_witness :
    ((trackCost 2 4).2.isSome ↔ MAX_BUDGET < 2 + 4) ∧
    (trackAll 1 [1, 2]).1 ≤ MAX_BUDGET :=
  ⟨claim_C4.1 2 4,
    claim_C4.2 [1, 2] 1 (by norm_num [MAX_BUDGET])
      (by norm_num [trackAll, trackCost, MAX_BUDGET])⟩

/-- C10: `trackCost` commits the spend before checking the ceiling: the
stored cumulative cost after the call is `c + x` even when the call
raises, and after a raising call `getBudgetStatus` reports a negative
remaining budget. -/
theorem claim_C10 :
    ∀ c x : ℚ,
      (trackCost c x).1 = c + x ∧
      ((trackCost c x).2.isSome →
        (getBudgetStatus (trackCost c x).1).remaining < 0) := by
  intro c x
  refine ⟨rfl, fun hraise => ?_⟩
  have hgt : MAX_BUDGET < c + x := by
    simp only [trackCost] at hraise
    split at hraise
    · assumption
    · simp at hraise
  simp only [trackCost, getBudgetStatus]
  linarith

theorem claim_C10_witness :
    (trackCost 3 4).1 = 3 + 4 ∧
    (getBudgetStatus (trackCost 3 4).1).remaining < 0 :=
  ⟨(claim_C10 3 4).1,
    (claim_C10 3 4).2 (by norm_num [trackCost, MAX_BUDGET])⟩

/-- C3: from any starting state, after `failureThreshold = 3` consecutive
`recordFailure` calls for backend `B` (no intervening operation on `B`),
`canExecute B` answers `false` at every instant less than `resetTimeout`
after the last failure and `true` at every instant more than
`resetTimeout` after it, no success having been recorded; and a
`recordSuccess` in any state clears `B`'s record, making `canExecute`
answer `true` immediately. -/
theorem claim_C3 :
    ∀ (st : CBState) (B : String) (t1 t2 t3 t : ℕ),
      (t < t3 + resetTimeout →
        (canExecute
          ((recordFailure ((recordFailure ((recordFailure st B t1).2)
            B t2).2) B t3).2) B t).1 = false) ∧
      (t3 + resetTimeout < t →
        (canExecute
          ((recordFailure ((recordFailure ((recordFailure st B t1).2)
            B t2).2) B t3).2) B t).1 = true) ∧
      (∀ st' : CBState, (recordSuccess st' B) B = none ∧
        (canExecute (recordSuccess st' B) B t).1 = true) := by
  intro st B t1 t2 t3 t
  have hlook :
      ((recordFailure ((recordFailure ((recordFailure st B t1).2)
        B t2).2) B t3).2) B =
      some ⟨((st B).getD ⟨0, 0⟩).count + 1 + 1 + 1, t3⟩ := by
    simp [recordFailure, CBState.set]
  refine ⟨fun hlt => ?_, fun hgt => ?_, fun st' => ?_⟩
  · simp only [canExecute, hlook]
    have h1 : ¬ resetTimeout < t - t3 := by
      simp only [resetTimeout] at hlt ⊢; omega
    have h2 : ¬ ((st B).getD ⟨0, 0⟩).count + 1 + 1 + 1 < failureThreshold := by
      simp only [failureThreshold]; omega
    simp [h1, h2]
  · simp only [canExecute, hlook]
    have h1 : resetTimeout < t - t3 := by
      simp only [resetTimeout] at hgt ⊢; omega
    simp [h1]
  · constructor
    · simp [recordSuccess, CBState.set]
    · simp [canExecute, recordSuccess, CBState.set]

theorem claim_C3_witness :
    ((canExecute
        ((recordFailure ((recordFailure ((recordFailure CBState.empty
          "google/veo-3.1-fast" 1000).2) "google/veo-3.1-fast" 2000).2)
          "google/veo-3.1-fast" 3000).2) "google/veo-3.1-fast" 4000).1
      = false) ∧
    ((canExecute
        ((recordFailure ((recordFailure ((recordFailure CBState.empty
          "google/veo-3.1-fast" 1000).2) "google/veo-3.1-fast" 2000).2)
          "google/veo-3.1-fast" 3000).2) "google/veo-3.1-fast" 70000).1
      = true) :=
  ⟨(claim_C3 CBState.empty "google/veo-3.1-fast" 1000 2000 3000 4000).1
      (by norm_num [resetTimeout]),
    (claim_C3 CBState.empty "google/veo-3.1-fast" 1000 2000 3000 70000).2.1
      (by norm_num [resetTimeout])⟩

/-- C5: a call is allowed iff both the per-minute and the per-hour counts
are below their thresholds — so the `(limit+1)`-th call inside a full
sliding window is denied and the two thresholds are enforced
independently — and once a request that was part of a full minute window
ages past the window boundary (with no new request recorded), the minute
count drops strictly below the limit, so the minute threshold no longer
denies. -/
theorem claim_C5 :
    (∀ (limits : RateLimits) (reqs : List ℕ) (now : ℕ),
      (checkRateLimit limits reqs now).1.allowed = true ↔
        (minuteCount reqs now < limits.requestsPerMinute ∧
          hourCount reqs now < limits.requestsPerHour)) ∧
    (∀ (limits : RateLimits) (reqs : List ℕ) (now now' t0 : ℕ),
      t0 ∈ reqs → now - t0 < 60 * 60 * 1000 → now - t0 < 60 * 1000 →
      limits.requestsPerMinute ≤ minuteCount reqs now →
      now ≤ now' → t0 + 60 * 1000 ≤ now' →
      minuteCount reqs now' < minuteCount reqs now) ∧
    (∀ (limits : RateLimits) (reqs : List ℕ) (now now' t0 : ℕ),
      t0 ∈ reqs → now - t0 < 60 * 60 * 1000 →
      limits.requestsPerHour ≤ hourCount reqs now →
      now ≤ now' → t0 + 60 * 60 * 1000 ≤ now' →
      hourCount reqs now' < hourCount reqs now) := by
  refine ⟨?_, ?_, ?_⟩
  · intro limits reqs now
    simp only [checkRateLimit, minuteCount, hourCount]
    split_ifs with h1 h2
    · constructor
      · intro hcontra; cases hcontra
      · rintro ⟨hmc, _⟩; exact absurd h1 (by omega)
    · constructor
      · intro hcontra; cases hcontra
      · rintro ⟨_, hhc⟩; exact absurd h2 (by omega)
    · exact ⟨fun _ => ⟨by omega, by omega⟩, fun _ => rfl⟩
  · intro limits reqs now now' t0 hmem hhour hmin _ hle hage
    have hmc : ∀ n : ℕ, minuteCount reqs n =
        (reqs.filter (fun t =>
          decide (n - t < 60 * 60 * 1000) && decide (n - t < 60 * 1000))).length := by
      intro n
      simp only [minuteCount, doubleFilter]
    rw [hmc now, hmc now']
    refine filterLen_lt _ _ t0 ?_ ?_ ?_ reqs hmem
    · intro t ht
      simp only [Bool.and_eq_true, decide_eq_true_eq] at ht ⊢
      omega
    · simp only [Bool.and_eq_true, decide_eq_true_eq]
      exact ⟨hhour, hmin⟩
    · simp only [Bool.and_eq_false_iff, decide_eq_false_iff_not]
      right
      omega
  · intro limits reqs now now' t0 hmem hhour _ hle hage
    simp only [hourCount]
    refine filterLen_lt _ _ t0 ?_ ?_ ?_ reqs hmem
    · intro t ht
      simp only [decide_eq_true_eq] at ht ⊢
      omega
    · simp only [decide_eq_true_eq]
      exact hhour
    · simp only [decide_eq_false_iff_not]
      omega

theorem claim_C5_witness :
    ((checkRateLimit RATE_LIMITS_replicate (List.replicate 10 0) 0).1.allowed
        = true ↔
      (minuteCount (List.replicate 10 0) 0 <
          RATE_LIMITS_replicate.requestsPerMinute ∧
        hourCount (List.replicate 10 0) 0 <
          RATE_LIMITS_replicate.requestsPerHour)) ∧
    minuteCount (List.replicate 10 0) 60000 <
      minuteCount (List.replicate 10 0) 0 ∧
    hourCount [0] (60 * 60 * 1000) < hourCount [0] 0 :=
  ⟨claim_C5.1 RATE_LIMITS_replicate (List.replicate 10 0) 0,
    claim_C5.2.1 RATE_LIMITS_replicate (List.replicate 10 0) 0 60000 0
      (by simp) (by norm_num) (by norm_num)
      (by norm_num [minuteCount, RATE_LIMITS_replicate])
      (by norm_num) (by norm_num),
    claim_C5.2.2 ⟨1, 1⟩ [0] 0 (60 * 60 * 1000) 0
      (by simp) (by norm_num) (by norm_num [hourCount])
      (by norm_num) (by norm_num)⟩

/-- C9: when `checkRateLimit` denies a call, the only mutation to the
identifier's record is the eviction of entries older than one hour — no
new timestamp is appended — and therefore the outcome of any later call
is exactly what it would have been had the denied call never happened:
denied polling consumes no quota and never postpones the moment the next
call becomes allowed. -/
theorem claim_C9 :
    ∀ (limits : RateLimits) (reqs : List ℕ) (now : ℕ),
      (checkRateLimit limits reqs now).1.allowed = false →
      ((checkRateLimit limits reqs now).2 =
        reqs.filter (fun t => now - t < 60 * 60 * 1000)) ∧
      (∀ now', now ≤ now' →
        checkRateLimit limits ((checkRateLimit limits reqs now).2) now' =
          checkRateLimit limits reqs now') := by
  intro limits reqs now hdenied
  have hsnd : (checkRateLimit limits reqs now).2 =
      reqs.filter (fun t => now - t < 60 * 60 * 1000) := by
    simp only [checkRateLimit] at hdenied ⊢
    split_ifs at hdenied ⊢ <;> simp_all
  refine ⟨hsnd, fun now' hle => ?_⟩
  rw [hsnd]
  refine checkRateLimit_congr limits _ reqs now' ?_
  rw [doubleFilter]
  refine filter_and_absorb _ _ ?_ reqs
  intro t ht
  simp only [decide_eq_true_eq] at ht ⊢
  omega

theorem claim_C9_witness :
    ((checkRateLimit RATE_LIMITS_replicate (List.replicate 10 5) 6).2 =
      (List.replicate 10 5).filter (fun t => 6 - t < 60 * 60 * 1000)) ∧
    (checkRateLimit RATE_LIMITS_replicate
        ((checkRateLimit RATE_LIMITS_replicate (List.replicate 10 5) 6).2)
        100 =
      checkRateLimit RATE_LIMITS_replicate (List.replicate 10 5) 100) :=
  ⟨(claim_C9 RATE_LIMITS_replicate (List.replicate 10 5) 6
      (by norm_num [checkRateLimit, RATE_LIMITS_replicate])).1,
    (claim_C9 RATE_LIMITS_replicate (List.replicate 10 5) 6
      (by norm_num [checkRateLimit, RATE_LIMITS_replicate])).2 100
      (by norm_num)⟩

/-- C7: for the `google/veo-3.1-fast` backend, whose permitted durations
are `[4, 6, 8]`, both snapping mechanisms — the nearest-value `reduce` in
`generateSceneVideo` (applied after clamping to `[MIN_DURATION,
maxDuration]`) and the threshold chain in the model's `buildInput` — send
every requested duration in `(5, 7]` to `6`; at the boundaries both are
deterministic and break the tie toward the smaller permitted value:
`5 ↦ 4` and `7 ↦ 6`. -/
theorem claim_C7 :
    ∀ spec : ModelSpec, VIDEO_MODELS "google/veo-3.1-fast" = some spec →
      (∀ d : ℚ, 5 < d → d ≤ 7 →
        clampedDuration spec d = 6 ∧ veoBuildInputDuration d = 6) ∧
      (clampedDuration spec 5 = 4 ∧ veoBuildInputDuration 5 = 4) ∧
      (clampedDuration spec 7 = 6 ∧ veoBuildInputDuration 7 = 6) := by
  intro spec h
  have h0 : VIDEO_MODELS "google/veo-3.1-fast" =
      some ⟨8, some [4, 6, 8], 15 / 1000, true⟩ := rfl
  rw [h0] at h
  injection h with h
  subst h
  refine ⟨fun d hd5 hd7 => ⟨?_, ?_⟩, ⟨?_, ?_⟩, ⟨?_, ?_⟩⟩
  · have hclamp : min (max d MIN_DURATION) (8 : ℚ) = d := by
      rw [max_eq_left (by simp only [MIN_DURATION]; linarith)]
      exact min_eq_left (by linarith)
    have e4 : |4 - d| = d - 4 := by
      rw [abs_sub_comm]; exact abs_of_pos (by linarith)
    have e6 : |6 - d| ≤ 1 := abs_le.mpr ⟨by linarith, by linarith⟩
    have e8 : |8 - d| = 8 - d := abs_of_nonneg (by linarith)
    simp only [clampedDuration, snapToAllowed, List.foldl, hclamp]
    have hinner : (if |(6 : ℚ) - d| < |4 - d| then (6 : ℚ) else 4) = 6 := by
      rw [e4, if_pos (by linarith [e6] : |(6 : ℚ) - d| < d - 4)]
    rw [hinner]
    have houter : ¬ (|(8 : ℚ) - d| < |6 - d|) := by
      rw [e8]; intro hc; linarith [e6]
    rw [if_neg houter]
  · simp only [veoBuildInputDuration, if_neg (by linarith : ¬ d ≤ (5 : ℚ)),
      if_pos hd7]
  · simp only [clampedDuration, snapToAllowed, List.foldl, MIN_DURATION]
    norm_num [abs]
  · norm_num [veoBuildInputDuration]
  · simp only [clampedDuration, snapToAllowed, List.foldl, MIN_DURATION]
    norm_num [abs]
  · norm_num [veoBuildInputDuration]

theorem claim_C7_witness :
    clampedDuration ⟨8, some [4, 6, 8], 15 / 1000, true⟩ (11 / 2) = 6 ∧
    veoBuildInputDuration (11 / 2) = 6 :=
  (claim_C7 ⟨8, some [4, 6, 8], 15 / 1000, true⟩ rfl).1 (11 / 2)
    (by norm_num) (by norm_num)

/-- Every executed scene function settles as exactly one of success or
failure, so the success and failure tallies grow by one per scene and no
record is ever marked aborted on this path. -/
theorem runScenesFrom_counts :
    ∀ (l : List SceneOutcome) (i : ℕ) (st : OrchState),
      ((runScenesFrom i l st).scenes.filter succAndVideo).length +
          (runScenesFrom i l st).failedCount =
        (st.scenes.filter succAndVideo).length + st.failedCount + l.length ∧
      abortedCount (runScenesFrom i l st).scenes = abortedCount st.scenes := by
  intro l
  induction l with
  | nil => intro i st; simp [runScenesFrom]
  | cons oc rest ih =>
      intro i st
      rcases ih (i + 1) (runSceneFn st i oc) with ⟨h1, h2⟩
      simp only [runScenesFrom]
      refine ⟨?_, ?_⟩
      · rw [h1]
        cases oc with
        | ok url summary hook =>
            simp [runSceneFn, List.filter_append, succAndVideo]
            omega
        | fail e =>
            simp [runSceneFn, List.filter_append, succAndVideo]
            omega
      · rw [h2]
        cases oc with
        | ok url summary hook =>
            simp [runSceneFn, abortedCount, List.filter_append]
        | fail e =>
            simp [runSceneFn, abortedCount, List.filter_append]

/-! ## The 429-retry scenario (claim C6)

A backend chain `[veo, luma]` in which every call to the first backend
fails with a 429-shaped error carrying an embedded "retry after 3" hint
and the next backend succeeds. -/

def msg429 : String := "429 Too Many Requests, retry after 3"

def oracle429 : ApiOracle := fun n =>
  if n < 4 then Except.error msg429
  else Except.ok "https://example.com/clip.mp4"

def run429 : Except String GenSuccess × EngineState × List GenEvent :=
  generateSceneVideo oracle429 6
    (some ["google/veo-3.1-fast", "luma/dream-machine"]) EngineState.init

/-- Symbolic execution of the 429 scenario: the event trace. -/
theorem run429_events :
    run429.2.2 =
      [GenEvent.apiCall "google/veo-3.1-fast", GenEvent.waited 4,
        GenEvent.apiCall "google/veo-3.1-fast", GenEvent.waited 4,
        GenEvent.apiCall "google/veo-3.1-fast", GenEvent.waited 4,
        GenEvent.apiCall "google/veo-3.1-fast",
        GenEvent.apiCall "luma/dream-machine"] ∧
    run429.1 =
      Except.ok ⟨"https://example.com/clip.mp4", "luma/dream-machine", 6⟩ := by
  have he : extractRetryTime msg429 = 3 := rfl
  have hs1 : strIncludes msg429 "Budget exceeded" = false := rfl
  have hs2 : strIncludes msg429 "402" = false := rfl
  have hs3 : strIncludes msg429 "Payment Required" = false := rfl
  have hs4 : strIncludes msg429 "insufficient credit" = false := rfl
  have hs5 : strIncludes msg429 "429" = true := rfl
  have hcd1 : clampedDuration ⟨8, some [4, 6, 8], 15 / 1000, true⟩ 6 = 6 := by
    norm_num [clampedDuration, snapToAllowed, MIN_DURATION]
  have hcd2 : clampedDuration ⟨30, none, (100 : ℚ)⁻¹, true⟩ 6 = 6 := by
    norm_num [clampedDuration, MIN_DURATION]
  have hb1 : ¬ ((getBudgetStatus 0).remaining < 15 / 1000 * 6) := by
    norm_num [getBudgetStatus, MAX_BUDGET]
  have hb2 : ¬ ((getBudgetStatus 0).remaining < (100 : ℚ)⁻¹ * 6) := by
    norm_num [getBudgetStatus, MAX_BUDGET]
  have htc : trackCost 0 ((100 : ℚ)⁻¹ * 6) = (3 / 50, none) := by
    norm_num [trackCost, MAX_BUDGET]
  constructor <;>
    simp [run429, generateSceneVideo, DEFAULT_MODEL_CHAIN, GEN_FUEL,
      genVideoGo, EngineState.init, CBState.empty, CBState.set, canExecute,
      checkRateLimit, RATE_LIMITS_replicate, setFn, recordFailure,
      recordSuccess, VIDEO_MODELS, MAX_RETRIES, oracle429, allFailedMessage,
      he, hs1, hs2, hs3, hs4, hs5, hcd1, hcd2, hb1, hb2, htc,
      failureThreshold, resetTimeout]

/-- C6 is false as stated: with a persistent 429-shaped "retry after 3"
failure the Video Stage retries the same backend three times
(`MAX_RETRIES = 3`, so four calls in all), not exactly once (which would
be two calls), before falling through to the next backend. -/
theorem claim_C6_counterexample :
    (run429.2.2.filter (· = GenEvent.apiCall "google/veo-3.1-fast")).length
        = 4 ∧
    ¬ (run429.2.2.filter
        (· = GenEvent.apiCall "google/veo-3.1-fast")).length = 2 := by
  rw [run429_events.1]
  constructor
  · decide
  · decide

/-- C6 (amended): on a 429-shaped failure whose message embeds a
"retry after 3" hint, `extractRetryTime` recovers `3`, the stage waits
`3 + 1 = 4` seconds before each retry, and it retries the same backend up
to `MAX_RETRIES = 3` times (four calls in all) before falling through to
the next backend in the chain, which then serves the scene. -/
theorem claim_C6 :
    extractRetryTime msg429 = 3 ∧
    MAX_RETRIES = 3 ∧
    run429.2.2 =
      [GenEvent.apiCall "google/veo-3.1-fast", GenEvent.waited 4,
        GenEvent.apiCall "google/veo-3.1-fast", GenEvent.waited 4,
        GenEvent.apiCall "google/veo-3.1-fast", GenEvent.waited 4,
        GenEvent.apiCall "google/veo-3.1-fast",
        GenEvent.apiCall "luma/dream-machine"] ∧
    run429.1 =
      Except.ok ⟨"https://example.com/clip.mp4", "luma/dream-machine", 6⟩ :=
  ⟨rfl, rfl, run429_events.1, run429_events.2⟩

/-! ## Sequential-driver lemmas (claims C2, C8) -/

theorem runSceneFn_reads (st : OrchState) (i : ℕ) (oc : SceneOutcome) :
    (runSceneFn st i oc).reads =
      st.reads ++ [(i, st.storySoFar, st.previousSceneEnd)] := by
  cases oc <;> rfl

theorem runScenesFrom_append :
    ∀ (l1 l2 : List SceneOutcome) (i : ℕ) (st : OrchState),
      runScenesFrom i (l1 ++ l2) st =
        runScenesFrom (i + l1.length) l2 (runScenesFrom i l1 st) := by
  intro l1
  induction l1 with
  | nil => intro l2 i st; simp [runScenesFrom]
  | cons oc rest ih =>
      intro l2 i st
      have h1 : runScenesFrom i ((oc :: rest) ++ l2) st
          = runScenesFrom (i + 1) (rest ++ l2) (runSceneFn st i oc) := rfl
      have h2 : runScenesFrom i (oc :: rest) st
          = runScenesFrom (i + 1) rest (runSceneFn st i oc) := rfl
      rw [h1, h2, ih, List.length_cons,
        show i + (rest.length + 1) = i + 1 + rest.length from by omega]

theorem runScenesFrom_reads_len :
    ∀ (l : List SceneOutcome) (i : ℕ) (st : OrchState),
      (runScenesFrom i l st).reads.length = st.reads.length + l.length := by
  intro l
  induction l with
  | nil => intro i st; simp [runScenesFrom]
  | cons oc rest ih =>
      intro i st
      simp only [runScenesFrom, List.length_cons, ih, runSceneFn_reads,
        List.length_append, List.length_cons, List.length_nil]
      omega

theorem runScenesFrom_reads_stable :
    ∀ (l : List SceneOutcome) (i : ℕ) (st : OrchState) (j : ℕ),
      j < st.reads.length →
      (runScenesFrom i l st).reads[j]? = st.reads[j]? := by
  intro l
  induction l with
  | nil => intro i st j _; rfl
  | cons oc rest ih =>
      intro i st j hj
      simp only [runScenesFrom]
      rw [ih (i + 1) (runSceneFn st i oc) j
        (by rw [runSceneFn_reads]; simp; omega)]
      rw [runSceneFn_reads, List.getElem?_append_left hj]

/-- C2 (amended): `createMovie` takes the bounded-parallel path only for
runs of exactly two scenes with `enableParallel`; on every sequential
path the continuity state is threaded strictly in scene order — the pair
(`storySoFar`, `previousSceneEnd`) consumed by scene `j + 1`'s script
request is exactly the state left behind after scenes `1 .. j` have
finished (which includes scene `j`'s write when it succeeded).  In the
two-scene parallel path scene 2's script request can be issued before
scene 1's continuity write (see the counterexample). -/
theorem claim_C2 :
    (∀ (e : Bool) (k : ℕ), usesParallel e k = true ↔ (e = true ∧ k = 2)) ∧
    (∀ (l : List SceneOutcome) (j : ℕ), j < l.length →
      (runScenesSeq l).reads[j]? =
        some (j + 1,
          (runScenesFrom 1 (l.take j) OrchState.init).storySoFar,
          (runScenesFrom 1 (l.take j) OrchState.init).previousSceneEnd)) := by
  constructor
  · intro e k
    simp only [usesParallel, Bool.and_eq_true, Bool.not_eq_true',
      decide_eq_true_eq, decide_eq_false_iff_not]
    constructor
    · rintro ⟨⟨h1, h2⟩, h3⟩; exact ⟨h1, by omega⟩
    · rintro ⟨h1, h2⟩; exact ⟨⟨h1, by omega⟩, by omega⟩
  · intro l j hj
    have hsplit : l = l.take j ++ l.drop j := (List.take_append_drop j l).symm
    have htl : (l.take j).length = j := by
      rw [List.length_take]; omega
    have hdrop : l.drop j = l[j] :: l.drop (j + 1) :=
      List.drop_eq_getElem_cons hj
    rw [runScenesSeq]
    conv_lhs => rw [hsplit]
    rw [runScenesFrom_append, htl, hdrop]
    simp only [runScenesFrom]
    set stj := runScenesFrom 1 (l.take j) OrchState.init with hstj
    have hlen : stj.reads.length = j := by
      rw [hstj, runScenesFrom_reads_len, htl]
      simp [OrchState.init]
    rw [runScenesFrom_reads_stable _ _ _ j
      (by rw [runSceneFn_reads]; simp [hlen])]
    rw [runSceneFn_reads, List.getElem?_append_right (by omega), hlen]
    simp only [Nat.sub_self, List.getElem?_cons_zero]
    rw [Nat.add_comm 1 j]

theorem claim_C2_witness :
    (usesParallel true 2 = true ↔ (true = true ∧ 2 = 2)) ∧
    (runScenesSeq [SceneOutcome.ok "u1" "S1" "H1",
        SceneOutcome.fail "e2"]).reads[1]? =
      some (2,
        (runScenesFrom 1
          ([SceneOutcome.ok "u1" "S1" "H1",
            SceneOutcome.fail "e2"].take 1) OrchState.init).storySoFar,
        (runScenesFrom 1
          ([SceneOutcome.ok "u1" "S1" "H1",
            SceneOutcome.fail "e2"].take 1) OrchState.init).previousSceneEnd) :=
  ⟨claim_C2.1 true 2,
    claim_C2.2 [SceneOutcome.ok "u1" "S1" "H1", SceneOutcome.fail "e2"] 1
      (by norm_num)⟩

/-! ## Parallel-executor scenarios and ordering (claims C2, C8) -/

def ocsDemo : ℕ → SceneOutcome := fun i =>
  SceneOutcome.ok ("url" ++ toString i) ("S" ++ toString i)
    ("H" ++ toString i)

/-- C2 is false as stated: in the two-scene bounded-parallel path (the
one `createMovie` takes for `totalScenes = 2` with `enableParallel`), the
loop starts scene 2 before scene 1 can settle — the trace
`[start 0, start 1, finish 0, finish 1]` is a complete execution, a trace
in which scene 1 finishes before scene 2 starts is not even executable,
and scene 2's script request consumed the initial continuity state `""`
rather than the value `"\nScene 1: S1"` written by scene 1. -/
theorem claim_C2_counterexample :
    usesParallel true 2 = true ∧
    (execPar MAX_PARALLEL_SCENES 2 ocsDemo
        [PEvent.start 0, PEvent.start 1, PEvent.finish 0,
          PEvent.finish 1]).map (fun st => st.nextStart) = some 2 ∧
    (execPar MAX_PARALLEL_SCENES 2 ocsDemo
        [PEvent.start 0, PEvent.start 1, PEvent.finish 0,
          PEvent.finish 1]).map (fun st => st.inFlight) = some [] ∧
    (execPar MAX_PARALLEL_SCENES 2 ocsDemo
        [PEvent.start 0, PEvent.start 1, PEvent.finish 0,
          PEvent.finish 1]).map (fun st => st.reads) =
      some [(1, "", none), (2, "", none)] ∧
    (execPar MAX_PARALLEL_SCENES 2 ocsDemo
        [PEvent.start 0, PEvent.start 1, PEvent.finish 0,
          PEvent.finish 1]).map (fun st => st.storySoFar) =
      some "\nScene 1: S1\nScene 2: S2" ∧
    (execPar MAX_PARALLEL_SCENES 2 ocsDemo
        [PEvent.start 0, PEvent.finish 0, PEvent.start 1,
          PEvent.finish 1]).isSome = false ∧
    ("" : String) ≠ "\nScene 1: S1" := by
  refine ⟨by decide, by decide, by decide, by decide, by decide, by decide,
    by decide⟩

/-- C8 is false as stated: in the two-scene parallel path the shared
`scenes` array is pushed in completion order, so when scene 2 settles
first the returned successful-scene list is `[2, 1]`, not index order —
even though the executor's own (discarded) `results` value is
index-ordered. -/
theorem claim_C8_counterexample :
    usesParallel true 2 = true ∧
    (execPar MAX_PARALLEL_SCENES 2 ocsDemo
        [PEvent.start 0, PEvent.start 1, PEvent.finish 1,
          PEvent.finish 0]).map
        (fun st => (st.pushed.filter succAndVideo).map (fun r => r.scene)) =
      some [2, 1] ∧
    (execPar MAX_PARALLEL_SCENES 2 ocsDemo
        [PEvent.start 0, PEvent.start 1, PEvent.finish 1,
          PEvent.finish 0]).map (fun st => st.nextStart) = some 2 ∧
    (execPar MAX_PARALLEL_SCENES 2 ocsDemo
        [PEvent.start 0, PEvent.start 1, PEvent.finish 1,
          PEvent.finish 0]).map (fun st => st.inFlight) = some [] ∧
    ([2, 1] : List ℕ) ≠ [1, 2] := by
  refine ⟨by decide, by decide, by decide, by decide, by decide⟩

/-- The executor invariant: in-flight indices are distinct and already
started; `results[i]` is set exactly for settled scenes and always holds
scene `i`'s record. -/
def ParInv (ocs : ℕ → SceneOutcome) (st : ParState) : Prop :=
  st.inFlight.Nodup ∧
  (∀ i, i ∈ st.inFlight → i < st.nextStart) ∧
  (∀ i, (st.results i).isSome ↔ (i < st.nextStart ∧ i ∉ st.inFlight)) ∧
  (∀ i, st.results i = none ∨
    st.results i = some (sceneRecordOf (i + 1) (ocs (i + 1))))

theorem parInv_init (ocs : ℕ → SceneOutcome) : ParInv ocs ParState.init := by
  refine ⟨List.nodup_nil, ?_, ?_, ?_⟩
  · intro i hi; cases hi
  · intro i
    simp [ParState.init]
  · intro i
    exact Or.inl rfl

/-- Finishing scene `i` preserves the invariant, whatever the scene's
outcome wrote to the narrative fields. -/
theorem parInv_finish {ocs : ℕ → SceneOutcome} {st st' : ParState} {i : ℕ}
    (hfl : st'.inFlight = st.inFlight.erase i)
    (hns : st'.nextStart = st.nextStart)
    (hres : st'.results = fun j => if j = i
      then some (sceneRecordOf (i + 1) (ocs (i + 1))) else st.results j)
    (hinv : ParInv ocs st) (hi : i ∈ st.inFlight) : ParInv ocs st' := by
  obtain ⟨hnd, hmem, hiff, hval⟩ := hinv
  refine ⟨?_, ?_, ?_, ?_⟩
  · rw [hfl]
    exact hnd.erase i
  · intro j hj
    rw [hfl] at hj
    rw [hns]
    exact hmem j (List.mem_of_mem_erase hj)
  · intro j
    rw [hns, hfl]
    simp only [hres]
    by_cases hji : j = i
    · subst hji
      refine iff_of_true ?_ ⟨hmem _ hi, hnd.not_mem_erase⟩
      simp
    · simp only [if_neg hji]
      rw [hiff j]
      constructor
      · rintro ⟨hlt, hnotin⟩
        exact ⟨hlt, fun h' => hnotin (List.mem_of_mem_erase h')⟩
      · rintro ⟨hlt, hnotin⟩
        exact ⟨hlt, fun h' => hnotin ((List.mem_erase_of_ne hji).mpr h')⟩
  · intro j
    simp only [hres]
    by_cases hji : j = i
    · subst hji
      simp only [if_pos rfl]
      exact Or.inr rfl
    · simp only [if_neg hji]
      exact hval j

theorem parStep_inv {p k : ℕ} {ocs : ℕ → SceneOutcome} {st st' : ParState}
    {e : PEvent} (hinv : ParInv ocs st)
    (hstep : parStep p k ocs st e = some st') : ParInv ocs st' := by
  obtain ⟨hnd, hmem, hiff, hval⟩ := hinv
  cases e with
  | start i =>
      simp only [parStep] at hstep
      split_ifs at hstep with hc
      · obtain ⟨hc1, hc2, hc3⟩ := hc
        subst hc1
        injection hstep with hstep
        subst hstep
        refine ⟨?_, ?_, ?_, hval⟩
        · show (st.inFlight ++ [st.nextStart]).Nodup
          rw [List.nodup_append]
          refine ⟨hnd, List.nodup_singleton st.nextStart, ?_⟩
          intro a ha hb
          simp only [List.mem_singleton] at hb
          subst hb
          exact absurd (hmem _ ha) (lt_irrefl _)
        · show ∀ j, j ∈ st.inFlight ++ [st.nextStart] → j < st.nextStart + 1
          intro j hj
          rcases List.mem_append.mp hj with hj' | hj'
          · exact Nat.lt_succ_of_lt (hmem j hj')
          · simp only [List.mem_singleton] at hj'
            omega
        · show ∀ j, (st.results j).isSome ↔
            (j < st.nextStart + 1 ∧ j ∉ st.inFlight ++ [st.nextStart])
          intro j
          rw [hiff j]
          by_cases hji : j = st.nextStart
          · subst hji
            constructor
            · rintro ⟨hlt, _⟩
              exact absurd hlt (lt_irrefl _)
            · rintro ⟨_, hnotin⟩
              exact absurd
                (by simp : st.nextStart ∈ st.inFlight ++ [st.nextStart])
                hnotin
          · constructor
            · rintro ⟨hlt, hnotin⟩
              refine ⟨by omega, ?_⟩
              intro hmem'
              rcases List.mem_append.mp hmem' with h' | h'
              · exact hnotin h'
              · simp only [List.mem_singleton] at h'
                exact hji h'
            · rintro ⟨hlt, hnotin⟩
              have hj2 : j < st.nextStart := by
                rcases Nat.lt_succ_iff_lt_or_eq.mp hlt with h' | h'
                · exact h'
                · exact absurd h' hji
              exact ⟨hj2, fun h' => hnotin (List.mem_append_left _ h')⟩
  | finish i =>
      simp only [parStep] at hstep
      split_ifs at hstep with hc
      · obtain ⟨hc1, _⟩ := hc
        cases hocs : ocs (i + 1) with
        | ok url summary hook =>
            rw [hocs] at hstep
            injection hstep with hstep
            subst hstep
            refine parInv_finish rfl rfl ?_ ⟨hnd, hmem, hiff, hval⟩ hc1
            rw [hocs]
        | fail err =>
            rw [hocs] at hstep
            injection hstep with hstep
            subst hstep
            refine parInv_finish rfl rfl ?_ ⟨hnd, hmem, hiff, hval⟩ hc1
            rw [hocs]

theorem execPar_inv {p k : ℕ} {ocs : ℕ → SceneOutcome} :
    ∀ (tr : List PEvent) (st st' : ParState), ParInv ocs st →
      List.foldlM (parStep p k ocs) st tr = some st' → ParInv ocs st' := by
  intro tr
  induction tr with
  | nil =>
      intro st st' hinv hfold
      injection hfold with hfold
      subst hfold
      exact hinv
  | cons e rest ih =>
      intro st st' hinv hfold
      simp only [List.foldlM_cons] at hfold
      cases hstep : parStep p k ocs st e with
      | none => rw [hstep] at hfold; cases hfold
      | some st1 =>
          rw [hstep] at hfold
          exact ih st1 st' (parStep_inv hinv hstep) hfold

theorem sceneRecordOf_scene (n : ℕ) (oc : SceneOutcome) :
    (sceneRecordOf n oc).scene = n := by
  cases oc <;> rfl

theorem filterMap_all_some (ocs : ℕ → SceneOutcome)
    (f : ℕ → Option SceneRecord) :
    ∀ L : List ℕ,
      (∀ i ∈ L, f i = some (sceneRecordOf (i + 1) (ocs (i + 1)))) →
      (L.filterMap f).map (fun r => r.scene) = L.map (· + 1) := by
  intro L
  induction L with
  | nil => intro _; rfl
  | cons a L ih =>
      intro hall
      rw [List.filterMap_cons, hall a (List.mem_cons_self a L)]
      simp only [List.map_cons, sceneRecordOf_scene]
      rw [ih (fun i hi => hall i (List.mem_cons_of_mem a hi))]

theorem runScenesFrom_scene_numbers :
    ∀ (l : List SceneOutcome) (i : ℕ) (st : OrchState),
      ((runScenesFrom i l st).scenes).map (fun r => r.scene) =
        st.scenes.map (fun r => r.scene) ++
          (List.range l.length).map (· + i) := by
  intro l
  induction l with
  | nil => intro i st; simp [runScenesFrom]
  | cons oc rest ih =>
      intro i st
      have hstep : (runSceneFn st i oc).scenes.map (fun r => r.scene) =
          st.scenes.map (fun r => r.scene) ++ [i] := by
        cases oc <;> simp [runSceneFn]
      show ((runScenesFrom (i + 1) rest (runSceneFn st i oc)).scenes).map
          (fun r => r.scene) = _
      rw [ih, hstep, List.length_cons, List.range_succ_eq_map]
      simp only [List.map_cons, List.map_map, List.append_assoc,
        List.cons_append, List.nil_append, Nat.zero_add]
      congr 1
      simp
      omega

/-- C8 (amended): in every sequential run the shared `scenes` array — and
hence the returned RunResult — lists the scenes in original index order
`1, 2, …, k`; and the index-addressed array that
`processScenesInParallel` itself returns is in original scene order for
every complete parallel execution, regardless of completion order.  What
fails (see the counterexample) is only the order of `createMovie`'s own
`scenes` array in the two-scene parallel path, which is pushed in
completion order while the executor's ordered return value is
discarded. -/
theorem claim_C8 :
    (∀ l : List SceneOutcome,
      ((runScenesSeq l).scenes).map (fun r => r.scene) =
        (List.range l.length).map (· + 1)) ∧
    (∀ (p k : ℕ) (ocs : ℕ → SceneOutcome) (tr : List PEvent)
      (st : ParState),
      execPar p k ocs tr = some st → parComplete k st →
      (parResults k st).map (fun r => r.scene) =
        (List.range k).map (· + 1)) := by
  constructor
  · intro l
    rw [runScenesSeq, runScenesFrom_scene_numbers]
    rfl
  · intro p k ocs tr st hexec hcomp
    have hinv : ParInv ocs st :=
      execPar_inv tr ParState.init st (parInv_init ocs) hexec
    obtain ⟨_, _, hiff, hval⟩ := hinv
    obtain ⟨hns, hfl⟩ := hcomp
    rw [parResults]
    refine filterMap_all_some ocs st.results (List.range k) ?_
    intro i hi
    have hisome : (st.results i).isSome = true := by
      rw [hiff i, hns, hfl]
      exact ⟨List.mem_range.mp hi, List.not_mem_nil i⟩
    rcases hval i with hnone | hsome
    · rw [hnone] at hisome
      cases hisome
    · exact hsome

theorem claim_C8_witness :
    ((runScenesSeq [SceneOutcome.ok "u1" "S1" "H1",
        SceneOutcome.fail "e2"]).scenes).map (fun r => r.scene) =
      (List.range 2).map (· + 1) ∧
    (parResults 2 ((execPar 2 2 ocsDemo
        [PEvent.start 0, PEvent.start 1, PEvent.finish 1,
          PEvent.finish 0]).getD ParState.init)).map (fun r => r.scene) =
      (List.range 2).map (· + 1) := by
  constructor
  · exact claim_C8.1 [SceneOutcome.ok "u1" "S1" "H1", SceneOutcome.fail "e2"]
  · have hsome : (execPar 2 2 ocsDemo
        [PEvent.start 0, PEvent.start 1, PEvent.finish 1,
          PEvent.finish 0]).isSome = true := by decide
    have heq : execPar 2 2 ocsDemo
        [PEvent.start 0, PEvent.start 1, PEvent.finish 1, PEvent.finish 0] =
        some ((execPar 2 2 ocsDemo
          [PEvent.start 0, PEvent.start 1, PEvent.finish 1,
            PEvent.finish 0]).getD ParState.init) := by
      cases hx : execPar 2 2 ocsDemo
          [PEvent.start 0, PEvent.start 1, PEvent.finish 1, PEvent.finish 0]
      · rw [hx] at hsome
        cases hsome
      · rfl
    refine claim_C8.2 2 2 ocsDemo _ _ heq ⟨?_, ?_⟩
    · decide
    · decide

/-! ## Scene-slot accounting (claim C1)

`createMovie` tallies its result from the scene records the scene
functions produced: `successfulScenes = scenes.filter(s => s.success &&
s.video)` (line 1981), `failedScenes` is the progress tracker's failure
count, incremented exactly when a scene function settles with a
non-aborted failure (lines 1926-1928), and a record is marked aborted
only on the cancellation path (line 1921).  On the sequential driver this
is `runScenesFrom`; on the bounded-parallel path each `finish` event
pushes exactly one record, which `sceneRecordOf` shows is either a
successful record with a clip URL or a non-aborted failure. -/

/-- Accounting invariant of the parallel executor: every pushed record is
a settled, non-aborted success-with-video or failure, and
started = settled + in-flight. -/
def ParAcc (st : ParState) : Prop :=
  (∀ r ∈ st.pushed,
    r.aborted = false ∧ (succAndVideo r = true ∨ r.success = false)) ∧
  st.pushed.length + st.inFlight.length = st.nextStart

theorem parAcc_init : ParAcc ParState.init := by
  constructor
  · intro r hr
    cases hr
  · rfl

theorem parStep_acc {p k : ℕ} {ocs : ℕ → SceneOutcome} {st st' : ParState}
    {e : PEvent} (hacc : ParAcc st)
    (hstep : parStep p k ocs st e = some st') : ParAcc st' := by
  obtain ⟨hrec, hcount⟩ := hacc
  cases e with
  | start i =>
      simp only [parStep] at hstep
      split_ifs at hstep with hc
      · obtain ⟨hc1, -, -⟩ := hc
        subst hc1
        injection hstep with hstep
        subst hstep
        refine ⟨hrec, ?_⟩
        show st.pushed.length + (st.inFlight ++ [st.nextStart]).length
            = st.nextStart + 1
        simp only [List.length_append, List.length_cons, List.length_nil]
        omega
  | finish i =>
      simp only [parStep] at hstep
      split_ifs at hstep with hc
      · obtain ⟨hc1, _⟩ := hc
        have herase : (st.inFlight.erase i).length = st.inFlight.length - 1 :=
          List.length_erase_of_mem hc1
        have hpos : 0 < st.inFlight.length := List.length_pos_of_mem hc1
        cases hocs : ocs (i + 1) with
        | ok url summary hook =>
            rw [hocs] at hstep
            injection hstep with hstep
            subst hstep
            constructor
            · intro r hr
              rcases List.mem_append.mp hr with hr' | hr'
              · exact hrec r hr'
              · simp only [List.mem_singleton] at hr'
                subst hr'
                exact ⟨rfl, Or.inl rfl⟩
            · show (st.pushed ++ [_]).length + (st.inFlight.erase i).length
                  = st.nextStart
              simp only [List.length_append, List.length_cons,
                List.length_nil, herase]
              omega
        | fail err =>
            rw [hocs] at hstep
            injection hstep with hstep
            subst hstep
            constructor
            · intro r hr
              rcases List.mem_append.mp hr with hr' | hr'
              · exact hrec r hr'
              · simp only [List.mem_singleton] at hr'
                subst hr'
                exact ⟨rfl, Or.inr rfl⟩
            · show (st.pushed ++ [_]).length + (st.inFlight.erase i).length
                  = st.nextStart
              simp only [List.length_append, List.length_cons,
                List.length_nil, herase]
              omega

theorem execPar_acc {p k : ℕ} {ocs : ℕ → SceneOutcome} :
    ∀ (tr : List PEvent) (st st' : ParState), ParAcc st →
      List.foldlM (parStep p k ocs) st tr = some st' → ParAcc st' := by
  intro tr
  induction tr with
  | nil =>
      intro st st' hacc hfold
      injection hfold with hfold
      subst hfold
      exact hacc
  | cons e rest ih =>
      intro st st' hacc hfold
      simp only [List.foldlM_cons] at hfold
      cases hstep : parStep p k ocs st e with
      | none => rw [hstep] at hfold; cases hfold
      | some st1 =>
          rw [hstep] at hfold
          exact ih st1 st' (parStep_acc hacc hstep) hfold

/-- Every settled, non-aborted record is counted exactly once: either as
a success-with-video or as a failure. -/
theorem filter_partition_succ :
    ∀ L : List SceneRecord,
      (∀ r ∈ L, succAndVideo r = true ∨ r.success = false) →
      (L.filter succAndVideo).length +
        (L.filter (fun r => !r.success)).length = L.length := by
  intro L
  induction L with
  | nil => intro _; rfl
  | cons r L ih =>
      intro h
      have htail := ih (fun r' hr' => h r' (List.mem_cons_of_mem r hr'))
      rcases h r (List.mem_cons_self r L) with hsv | hns
      · have hsucc : r.success = true := by
          simp only [succAndVideo, Bool.and_eq_true] at hsv
          exact hsv.1
        simp [List.filter_cons, hsv, hsucc]
        omega
      · have hsv : succAndVideo r = false := by
          simp [succAndVideo, hns]
        simp [List.filter_cons, hsv, hns]
        omega

theorem abortedCount_eq_zero :
    ∀ L : List SceneRecord, (∀ r ∈ L, r.aborted = false) →
      abortedCount L = 0 := by
  intro L
  induction L with
  | nil => intro _; rfl
  | cons r L ih =>
      intro h
      have hr := h r (List.mem_cons_self r L)
      simp only [abortedCount, List.filter_cons, hr, if_false,
        Bool.false_eq_true]
      exact ih (fun r' hr' => h r' (List.mem_cons_of_mem r hr'))

/-- C1 (amended): the computed scene count is `max(1, ceil(T / d'))`
where `d'` is the *calculated* scene duration — the requested duration
after the 30-second special case and the snap to the selected model's
permitted durations — not the requested duration itself; and in a run
that is not cancelled the scene records account for exactly `k` scene
slots with no slot aborted, on both executors: on the sequential driver
successful + failed + aborted = k and the aborted count is 0, and on
every complete execution of the bounded-parallel path the pushed records
satisfy successful + failed + aborted = k with aborted count 0.  (In a
cancelled run the accounting fails — see the counterexample.) -/
theorem claim_C1 :
    (∀ (T d : ℚ) (chain : Option (List String)) (promptLen numChars k : ℕ)
      (l : List SceneOutcome),
      validCreateMovie promptLen numChars T →
      (k : ℤ) = totalScenesCount T d chain →
      l.length = k →
      (movieRunResult k l).totalScenes = k ∧
      (movieRunResult k l).successfulScenes + (movieRunResult k l).failedScenes
          + abortedCount (runScenesSeq l).scenes = k ∧
      abortedCount (runScenesSeq l).scenes = 0 ∧
      totalScenesCount T d chain =
        max 1 ⌈T / calculatedSceneDuration T d chain⌉) ∧
    (∀ (p k : ℕ) (ocs : ℕ → SceneOutcome) (tr : List PEvent)
      (st : ParState),
      execPar p k ocs tr = some st → parComplete k st →
      (st.pushed.filter succAndVideo).length +
          (st.pushed.filter (fun r => !r.success)).length +
          abortedCount st.pushed = k ∧
      abortedCount st.pushed = 0) := by
  constructor
  · intro T d chain promptLen numChars k l _ _ hlen
    rcases runScenesFrom_counts l 1 OrchState.init with ⟨h1, h2⟩
    have hinit1 : ((OrchState.init).scenes.filter succAndVideo).length = 0 :=
      rfl
    have hinit2 : (OrchState.init).failedCount = 0 := rfl
    have hinit3 : abortedCount (OrchState.init).scenes = 0 := rfl
    rw [hinit1, hinit2] at h1
    rw [hinit3] at h2
    refine ⟨rfl, ?_, ?_, rfl⟩
    · simp only [movieRunResult, runScenesSeq]
      omega
    · rw [runScenesSeq]
      omega
  · intro p k ocs tr st hexec hcomp
    obtain ⟨hrec, hcount⟩ :=
      execPar_acc tr ParState.init st parAcc_init hexec
    obtain ⟨hns, hfl⟩ := hcomp
    have hlen : st.pushed.length = k := by
      rw [hfl] at hcount
      simpa [hns] using hcount
    have hzero : abortedCount st.pushed = 0 :=
      abortedCount_eq_zero st.pushed (fun r hr => (hrec r hr).1)
    have hpart := filter_partition_succ st.pushed (fun r hr => (hrec r hr).2)
    refine ⟨?_, hzero⟩
    omega

/-- C1 is false as stated, in both halves.  Scene count: the valid
invocation `totalDurationSeconds = 30`, `sceneDuration = 5` with the
default model chain computes 5 scenes (the 30-second special case and
the veo snap turn the scene duration into 6), not
`max(1, ceil(30 / 5)) = 6`.  Accounting: in the same 5-slot run, if the
cancellation signal trips after the first scene settles, the sequential
loop breaks and the run's records account for only 1 slot — successful +
failed + aborted = 1 ≠ 5 — which is what forces the amended claim's
restriction to runs that are not cancelled. -/
theorem claim_C1_counterexample :
    validCreateMovie 40 1 30 ∧
    totalScenesCount 30 5 none = 5 ∧
    ¬ totalScenesCount 30 5 none = max 1 ⌈(30 : ℚ) / 5⌉ ∧
    ((runScenesSeqAborted
        [SceneOutcome.ok "u1" "S1" "H1", SceneOutcome.ok "u2" "S2" "H2",
          SceneOutcome.ok "u3" "S3" "H3", SceneOutcome.ok "u4" "S4" "H4",
          SceneOutcome.ok "u5" "S5" "H5"] 1).scenes.filter
          succAndVideo).length +
        (runScenesSeqAborted
          [SceneOutcome.ok "u1" "S1" "H1", SceneOutcome.ok "u2" "S2" "H2",
            SceneOutcome.ok "u3" "S3" "H3", SceneOutcome.ok "u4" "S4" "H4",
            SceneOutcome.ok "u5" "S5" "H5"] 1).failedCount +
        abortedCount (runScenesSeqAborted
          [SceneOutcome.ok "u1" "S1" "H1", SceneOutcome.ok "u2" "S2" "H2",
            SceneOutcome.ok "u3" "S3" "H3", SceneOutcome.ok "u4" "S4" "H4",
            SceneOutcome.ok "u5" "S5" "H5"] 1).scenes = 1 ∧
    (1 : ℕ) ≠ 5 := by
  have h1 : calculatedSceneDuration 30 5 none = 6 := by
    norm_num [calculatedSceneDuration, selectedModelName, VIDEO_MODELS,
      snapToAllowed]
  have h2 : totalScenesCount 30 5 none = 5 := by
    rw [totalScenesCount, h1]; norm_num
  refine ⟨⟨by norm_num, by norm_num, by norm_num [MAX_TOTAL_DURATION]⟩, h2,
    ?_, by decide, by decide⟩
  rw [h2]
  norm_num

theorem claim_C1_witness :
    ((movieRunResult 5
        [SceneOutcome.ok "u1" "S1" "H1", SceneOutcome.fail "e2",
          SceneOutcome.ok "u3" "S3" "H3", SceneOutcome.fail "e4",
          SceneOutcome.ok "u5" "S5" "H5"]).successfulScenes +
      (movieRunResult 5
        [SceneOutcome.ok "u1" "S1" "H1", SceneOutcome.fail "e2",
          SceneOutcome.ok "u3" "S3" "H3", SceneOutcome.fail "e4",
          SceneOutcome.ok "u5" "S5" "H5"]).failedScenes +
      abortedCount (runScenesSeq
        [SceneOutcome.ok "u1" "S1" "H1", SceneOutcome.fail "e2",
          SceneOutcome.ok "u3" "S3" "H3", SceneOutcome.fail "e4",
          SceneOutcome.ok "u5" "S5" "H5"]).scenes = 5 ∧
      abortedCount (runScenesSeq
        [SceneOutcome.ok "u1" "S1" "H1", SceneOutcome.fail "e2",
          SceneOutcome.ok "u3" "S3" "H3", SceneOutcome.fail "e4",
          SceneOutcome.ok "u5" "S5" "H5"]).scenes = 0) ∧
    ((((execPar 2 2 ocsDemo
        [PEvent.start 0, PEvent.start 1, PEvent.finish 0,
          PEvent.finish 1]).getD ParState.init).pushed.filter
          succAndVideo).length +
      (((execPar 2 2 ocsDemo
        [PEvent.start 0, PEvent.start 1, PEvent.finish 0,
          PEvent.finish 1]).getD ParState.init).pushed.filter
          (fun r => !r.success)).length +
      abortedCount ((execPar 2 2 ocsDemo
        [PEvent.start 0, PEvent.start 1, PEvent.finish 0,
          PEvent.finish 1]).getD ParState.init).pushed = 2 ∧
      abortedCount ((execPar 2 2 ocsDemo
        [PEvent.start 0, PEvent.start 1, PEvent.finish 0,
          PEvent.finish 1]).getD ParState.init).pushed = 0) := by
  constructor
  · have h := (claim_C1.1 30 5 none 40 1 5
      [SceneOutcome.ok "u1" "S1" "H1", SceneOutcome.fail "e2",
        SceneOutcome.ok "u3" "S3" "H3", SceneOutcome.fail "e4",
        SceneOutcome.ok "u5" "S5" "H5"]
      ⟨by norm_num, by norm_num, by norm_num [MAX_TOTAL_DURATION]⟩
      (by
        have h1 : calculatedSceneDuration 30 5 none = 6 := by
          norm_num [calculatedSceneDuration, selectedModelName,
            VIDEO_MODELS, snapToAllowed]
        rw [totalScenesCount, h1]; norm_num)
      (by norm_num))
    exact ⟨h.2.1, h.2.2.1⟩
  · have hsome : (execPar 2 2 ocsDemo
        [PEvent.start 0, PEvent.start 1, PEvent.finish 0,
          PEvent.finish 1]).isSome = true := by decide
    have heq : execPar 2 2 ocsDemo
        [PEvent.start 0, PEvent.start 1, PEvent.finish 0, PEvent.finish 1] =
        some ((execPar 2 2 ocsDemo
          [PEvent.start 0, PEvent.start 1, PEvent.finish 0,
            PEvent.finish 1]).getD ParState.init) := by
      cases hx : execPar 2 2 ocsDemo
          [PEvent.start 0, PEvent.start 1, PEvent.finish 0, PEvent.finish 1]
      · rw [hx] at hsome
        cases hsome
      · rfl
    exact claim_C1.2 2 2 ocsDemo _ _ heq ⟨by decide, by decide⟩

end MotionAI
